import Mathlib

/-!
# protoc-gen-uniform: the generator's decisions and the behaviour of the code it emits

A shallow embedding of `src/main.go`.

* Go strings are modelled as Lean strings and scanned character by character.  The
  only bytes the program looks for are the ASCII `/` and `.`, so a scan over
  characters meets the same positions as Go's scan over bytes.
* `path/filepath` is embedded in its Unix form (separator `/`, no volume name).
* The plugin value of `protogen` is an explicit record that is threaded through
  `checkFile`, `validateFile` and `generateFile`.
* The text handed to `g.P` is kept line by line; the Go code inside that text is
  given a meaning in the namespace `Emitted`.
-/

namespace Uniform

/-! ## path/filepath (Unix) -/

/-- The test `os.IsPathSeparator` on Unix. -/
def isPathSeparator (c : Char) : Bool := c == '/'

/-- The loop of `filepath.Base` that strips trailing separators, on the reversed path. -/
def stripTrailing : List Char → List Char
  | [] => []
  | c :: rest => if isPathSeparator c then stripTrailing rest else c :: rest

/-- The loop of `filepath.Base` that finds the last element: scanning the reversed
path, collect characters until a separator is met. -/
def lastElement : List Char → List Char → List Char
  | [], acc => acc
  | c :: rest, acc => if isPathSeparator c then acc else lastElement rest (c :: acc)

/-- The function `filepath.Base`: the last element of the path. -/
def Base (path : String) : String :=
  if path.data = [] then "."
  else
    let elem := lastElement (stripTrailing path.data.reverse) []
    if elem = [] then "/" else String.mk elem

/-- The loop of `filepath.Ext`, on the reversed path: `acc` is the part already
scanned, the result is `path[i:]` at the first dot met before any separator. -/
def extLoop : List Char → List Char → List Char
  | [], _ => []
  | c :: rest, acc =>
    if isPathSeparator c then []
    else if c = '.' then c :: acc
    else extLoop rest (c :: acc)

/-- The function `filepath.Ext`: the suffix from the last dot of the last element. -/
def Ext (path : String) : String := String.mk (extLoop path.data.reverse [])

/-- The function `trimPathAndExt` of main.go: `f[:len(f)-len(ext)]`. -/
def trimPathAndExt (fName : String) : String :=
  let f := Base fName
  let ext := Ext f
  String.mk (f.data.take (f.data.length - ext.data.length))

/-- The inner loop of the `..` case of `filepath.Clean`: starting from index `w`,
step back while `w > dotdot` and `out[w]` is not a separator. -/
def cleanBacktrack (out : List Char) (dotdot : Nat) : Nat → Nat
  | 0 => 0
  | w + 1 =>
    if dotdot < w + 1 ∧ ¬ isPathSeparator (out.getD (w + 1) '/') = true then
      cleanBacktrack out dotdot w
    else w + 1

/-- The main loop of `filepath.Clean`.  `path` is the unread part `path[r:]`, `out`
the written buffer `buf[:w]`, and `dotdot` the index where `..` must stop.  The first
argument bounds the number of rounds; every round reads at least one character, so
the length of the path is enough (`cleanLoop_fuel`). -/
def cleanLoop (rooted : Bool) : Nat → List Char → List Char → Nat → List Char
  | 0, _, out, _ => out
  | fuel + 1, path, out, dotdot =>
    match path with
    | [] => out
    | c :: rest =>
      if isPathSeparator c then
        cleanLoop rooted fuel rest out dotdot
      else if c = '.' ∧ (rest = [] ∨ (rest.head?.map isPathSeparator) = some true) then
        cleanLoop rooted fuel rest out dotdot
      else if c = '.' ∧ rest.head? = some '.' ∧
          (rest.tail = [] ∨ (rest.tail.head?.map isPathSeparator) = some true) then
        if dotdot < out.length then
          cleanLoop rooted fuel rest.tail
            (out.take (cleanBacktrack out dotdot (out.length - 1))) dotdot
        else if rooted = false then
          let out1 := if 0 < out.length then out ++ ['/'] else out
          let out2 := out1 ++ ['.', '.']
          cleanLoop rooted fuel rest.tail out2 out2.length
        else
          cleanLoop rooted fuel rest.tail out dotdot
      else
        let out1 :=
          if (rooted = true ∧ out.length ≠ 1) ∨ (rooted = false ∧ out.length ≠ 0) then
            out ++ ['/']
          else out
        cleanLoop rooted fuel (path.dropWhile (fun x => !isPathSeparator x))
          (out1 ++ path.takeWhile (fun x => !isPathSeparator x)) dotdot

/-- The function `filepath.Clean` on a list of characters. -/
def cleanChars (path : List Char) : List Char :=
  match path with
  | [] => ['.']
  | c :: _ =>
    let rooted := isPathSeparator c
    let out :=
      if rooted then cleanLoop rooted path.length path.tail ['/'] 1
      else cleanLoop rooted path.length path [] 0
    if out = [] then ['.'] else out

/-- The loop of `filepath.Dir` on the reversed path: drop the characters after the
last separator, keeping the separator. -/
def dirPart : List Char → List Char
  | [] => []
  | c :: rest => if isPathSeparator c then c :: rest else dirPart rest

/-- The function `filepath.Dir`: all but the last element of the path, cleaned. -/
def Dir (path : String) : String :=
  String.mk (cleanChars (dirPart path.data.reverse).reverse)

/-! ## The data handed over by protogen -/

/-- A Go identifier together with the import path of its package (`protogen.GoIdent`). -/
structure GoIdent where
  GoName : String
  GoImportPath : String
  deriving DecidableEq, Repr

/-- The value of the `google.api.http` option of a method (`annotations.HttpRule`);
its content plays no part in the generator. -/
structure HttpRule where
  pattern : String
  deriving DecidableEq, Repr

/-- A method of a service (`protogen.Method`).  `Http` is what
`proto.GetExtension(method.Desc.Options(), annotations.E_Http)` yields: a nil
`*HttpRule` (`none`) when the option is absent, the rule otherwise. -/
structure Method where
  GoName : String
  Name : String
  Input : GoIdent
  Output : GoIdent
  IsStreamingClient : Bool
  IsStreamingServer : Bool
  Http : Option HttpRule
  deriving DecidableEq, Repr

/-- A service (`protogen.Service`). -/
structure Service where
  GoName : String
  FullName : String
  Methods : List Method
  deriving DecidableEq, Repr

/-- A file of the request (`protogen.File`).  `Name` and `Package` are the optional
fields `f.Proto.Name` and `f.Proto.Package`. -/
structure File where
  Name : Option String
  Package : Option String
  Generate : Bool
  Services : List Service
  GeneratedFilenamePrefix : String
  GoImportPath : String
  GoPackageName : String
  deriving DecidableEq, Repr

/-- The getter `f.Proto.GetName()`: the empty string when the field is unset. -/
def File.GetName (f : File) : String := f.Name.getD ""

/-- The getter `f.Proto.GetPackage()`: the empty string when the field is unset. -/
def File.GetPackage (f : File) : String := f.Package.getD ""

/-- Library functions whose result is only copied into the output: `quote` is
`strconv.Quote` (also the verb `%q`), `qualifiedGoIdent g ident` is
`g.QualifiedGoIdent(ident)` for the generated file with import path `g`. -/
structure Lib where
  quote : String → String
  qualifiedGoIdent : String → GoIdent → String

/-- The errors handed to `p.Error`: the two package-level values and the one built
by `fmt.Errorf` in `validateFile`. -/
inductive GenError where
  | errMultiplyService
  | errValidationFails
  | errorf (msg : String)
  deriving DecidableEq, Repr

/-- The message of an error (`err.Error()`). -/
def GenError.message : GenError → String
  | .errMultiplyService => "files with multiply services aren't supported"
  | .errValidationFails => "proto file did not pass validation"
  | .errorf msg => msg

/-- A file created by `p.NewGeneratedFile`, with the lines printed into it by `g.P`. -/
structure GeneratedFile where
  filename : String
  goImportPath : String
  lines : List String
  deriving DecidableEq, Repr

/-- The compiler version of the request (`pluginpb.Version`), read through the
getters `GetMajor`, `GetMinor` and `GetPatch`. -/
structure Version where
  Major : Int
  Minor : Int
  Patch : Int
  deriving DecidableEq, Repr

/-- The plugin value `*protogen.Plugin`: `compilerVersion` is
`p.Request.GetCompilerVersion()`, `supportedFeatures` the field `SupportedFeatures`,
`err` is the error it keeps, `genFiles` the
files created so far.  `raised` is the history of all calls of `p.Error`; the library
does not keep it, it is recorded here to say which diagnostics were raised. -/
structure Plugin where
  compilerVersion : Option Version
  supportedFeatures : Nat
  err : Option GenError
  genFiles : List GeneratedFile
  raised : List GenError
  deriving DecidableEq, Repr

/-- A plugin at the start of a run, for a request without compiler version. -/
def Plugin.init : Plugin :=
  { compilerVersion := none, supportedFeatures := 0, err := none, genFiles := [],
    raised := [] }

/-- Modelled from the spec: `Plugin.Error` belongs to the protogen library, which is
not part of main.go.  A diagnostic marks the run as failed and the visit goes on
(§4.1); the library keeps the first error only. -/
def Plugin.Error (p : Plugin) (e : GenError) : Plugin :=
  { p with err := if p.err.isNone then some e else p.err, raised := p.raised ++ [e] }

/-- Modelled from the spec: `Plugin.NewGeneratedFile` belongs to the protogen library.
The call, followed by the `g.P` calls that print `lines`, adds one file to the plugin
(§6: one response file per eligible input file). -/
def Plugin.NewGeneratedFile (p : Plugin) (g : GeneratedFile) : Plugin :=
  { p with genFiles := p.genFiles ++ [g] }

/-- The response of a run (`pluginpb.CodeGeneratorResponse`). -/
structure Response where
  error : Option String
  files : List GeneratedFile
  deriving DecidableEq, Repr

/-- Modelled from the spec: `Plugin.Response` belongs to the protogen library, which
is not part of main.go.  Once a diagnostic was recorded the run reports failure and
carries no output (§4.1 "fatal-for-the-run", §7 "a failed run must produce no
output"); otherwise it carries the files that were created. -/
def Plugin.Response (p : Plugin) : Response :=
  match p.err with
  | some e => { error := some e.message, files := [] }
  | none => { error := none, files := p.genFiles }

/-! ## The validator -/

/-- The type `uniqPackageValidator`: the Go map `dir2pkg`, as a lookup function. -/
structure uniqPackageValidator where
  dir2pkg : String → Option String

/-- The validator built in `main`: `make(map[string]string)`. -/
def uniqPackageValidator.empty : uniqPackageValidator := { dir2pkg := fun _ => none }

/-- The assignment `pv.dir2pkg[dir] = pkg`. -/
def uniqPackageValidator.set (pv : uniqPackageValidator) (dir pkg : String) :
    uniqPackageValidator :=
  { dir2pkg := fun d => if d = dir then some pkg else pv.dir2pkg d }

/-- The condition of the `if` in `checkFile`:
`pkg, ok := pv.dir2pkg[dir]; ok && f.Proto.GetPackage() != pkg`. -/
def checkFileConflict (pv : uniqPackageValidator) (f : File) : Bool :=
  match pv.dir2pkg (Dir f.GetName) with
  | some pkg => f.GetPackage != pkg
  | none => false

/-- The line printed by `log.Printf` in `checkFile`. -/
def conflictLog (lib : Lib) (dir pkg newPkg : String) : String :=
  "ERROR: dir " ++ lib.quote dir ++ " contains protos with different packages (" ++
    pkg ++ ", " ++ newPkg ++ ", ...)\n"

/-- The method `checkFile`: the validator, the plugin and the standard error log
after the call. -/
def checkFile (lib : Lib) (pv : uniqPackageValidator) (p : Plugin) (log : List String)
    (f : File) : uniqPackageValidator × Plugin × List String :=
  let dir := Dir f.GetName
  let r : Plugin × List String :=
    match pv.dir2pkg dir with
    | some pkg =>
      if f.GetPackage != pkg then
        (p.Error .errValidationFails, log ++ [conflictLog lib dir pkg f.GetPackage])
      else (p, log)
    | none => (p, log)
  (pv.set dir f.GetPackage, r.1, r.2)

/-- The function `validateFile`. -/
def validateFile (lib : Lib) (p : Plugin) (f : File) : Plugin :=
  if f.Package.isNone then
    p.Error (.errorf ("ERROR: proto file " ++ lib.quote f.GetName ++
      " has no package, which is required"))
  else p

/-- A sequence of `checkFile` calls, one per file, in order. -/
def checkFiles (lib : Lib) (pv : uniqPackageValidator) (p : Plugin) (log : List String) :
    List File → uniqPackageValidator × Plugin × List String
  | [] => (pv, p, log)
  | f :: rest =>
    let r := checkFile lib pv p log f
    checkFiles lib r.1 r.2.1 r.2.2 rest

/-! ## The generator -/

/-- The constant `version`. -/
def version : String := "v0.0.1"

/-- The imported packages `contextPackage`, `grpcPackage`, `runtimePackage` and
`middlewarePackage`. -/
def contextPackage : String := "context"

def grpcPackage : String := "google.golang.org/grpc"

def runtimePackage : String := "github.com/grpc-ecosystem/grpc-gateway/v2/runtime"

def middlewarePackage : String := "github.com/grpc-ecosystem/go-grpc-middleware"

/-- The method `Ident` of an import path. -/
def ident (pkg name : String) : GoIdent := { GoName := name, GoImportPath := pkg }

/-- The function `methodsHaveHttpOptions`.  The extension value is a `*HttpRule`: when
it is nil the loop continues, otherwise the type assertion succeeds and the function
returns true. -/
def methodsHaveHttpOptions : List Method → Bool
  | [] => false
  | method :: rest =>
    match method.Http with
    | none => methodsHaveHttpOptions rest
    | some _ => true

/-- The local `protocVersion` of `generateFile`. -/
def protocVersion (p : Plugin) : String :=
  match p.compilerVersion with
  | some v => "v" ++ toString v.Major ++ "." ++ toString v.Minor ++ "." ++ toString v.Patch
  | none => "(unknown)"

/-- The local `descName` of `generateFile`. -/
def descName (service : Service) : String := service.GoName ++ "ServiceDesc"

/-- The local `proxyName` of `generateFile`. -/
def proxyName (service : Service) : String := "proxy" ++ service.GoName ++ "Server"

/-- Lines 117-162 of main.go: the file header, the embed directive, the descriptor
type, its constructor, `Swagger` and `RegisterGRPC`. -/
def descriptorLines (lib : Lib) (p : Plugin) (f : File) (service : Service) : List String :=
  let q := lib.qualifiedGoIdent f.GoImportPath
  [ "// Code generated by protoc-gen-bomboglot. DO NOT EDIT.",
    "// versions:",
    "// \tprotoc-gen-bomboglot: " ++ version,
    "// \tprotoc:             " ++ protocVersion p ] ++
  (match f.Name with
    | some name => ["// source: " ++ name]
    | none => []) ++
  [ "",
    "package " ++ f.GoPackageName,
    "",
    "import _ \"embed\"",
    "",
    "//go:embed " ++ trimPathAndExt f.GetName ++ ".swagger.json",
    "var swaggerJSON []byte",
    "// " ++ descName service ++ " is description for the " ++ service.GoName ++ "Server.",
    "type " ++ descName service ++ " struct \x7b",
    "svc " ++ service.GoName ++ "Server",
    "i " ++ q (ident grpcPackage "UnaryServerInterceptor"),
    "\x7d",
    "",
    "func New" ++ descName service ++ "(i " ++ service.GoName ++ "Server) " ++ "*" ++
      descName service ++ " \x7b",
    "return &" ++ descName service ++ "\x7bsvc: i\x7d",
    "\x7d",
    "",
    "func(d *" ++ descName service ++ ") Swagger() []byte \x7b",
    "return swaggerJSON",
    "\x7d",
    "",
    "func(d *" ++ descName service ++ ") RegisterGRPC(s *" ++ q (ident grpcPackage "Server") ++
      ") \x7b",
    "Register" ++ service.GoName ++ "Server(s, d.svc)",
    "\x7d",
    "" ]

/-- Line 164 of main.go: the signature of `RegisterGateway`. -/
def registerGatewayHeader (lib : Lib) (f : File) (service : Service) : String :=
  let q := lib.qualifiedGoIdent f.GoImportPath
  "func(d *" ++ descName service ++ ") RegisterGateway(ctx " ++
    q (ident contextPackage "Context") ++ ", mux *" ++ q (ident runtimePackage "ServeMux") ++
    ") error \x7b"

/-- Lines 167-173 of main.go: the registration of the handler server, on the service
itself when no interceptor is set, on a proxy value otherwise. -/
def fullRegistration (service : Service) : List String :=
  [ "if d.i == nil \x7b",
    "return Register" ++ service.GoName ++ "HandlerServer(ctx, mux, d.svc)",
    "\x7d",
    "return Register" ++ service.GoName ++ "HandlerServer(ctx, mux, &" ++
      proxyName service ++ "\x7b",
    service.GoName ++ "Server: d.svc,",
    "interceptor: d.i,",
    "\x7d)" ]

/-- Line 175 of main.go: the registration that does nothing. -/
def noOpRegistration : List String := [ "return nil" ]

/-- Lines 166-176 of main.go: the body of `RegisterGateway`. -/
def registerGatewayBody (registerGateway : Bool) (service : Service) : List String :=
  if registerGateway || methodsHaveHttpOptions service.Methods then
    fullRegistration service
  else
    noOpRegistration

/-- Lines 180-194 of main.go: `WithHTTPUnaryInterceptor` and the proxy type. -/
def interceptorLines (lib : Lib) (f : File) (service : Service) : List String :=
  let q := lib.qualifiedGoIdent f.GoImportPath
  [ "// WithHTTPUnaryInterceptor adds GRPC Server Interceptor for HTTP gateway requests. Call again for multiple Interceptors.",
    "func(d *" ++ descName service ++ ") WithHTTPUnaryInterceptor(u " ++
      q (ident grpcPackage "UnaryServerInterceptor") ++ ") \x7b",
    "if d.i == nil \x7b",
    "d.i = u",
    "\x7d else \x7b",
    "d.i = " ++ q (ident middlewarePackage "ChainUnaryServer") ++ "(d.i, u)",
    "\x7d",
    "\x7d",
    "",
    "type " ++ proxyName service ++ " struct \x7b",
    service.GoName ++ "Server",
    "interceptor " ++ q (ident grpcPackage "UnaryServerInterceptor"),
    "\x7d",
    "" ]

/-- Lines 201-216 of main.go: the proxy method printed for one method. -/
def proxyMethodLines (lib : Lib) (f : File) (service : Service) (method : Method) :
    List String :=
  let q := lib.qualifiedGoIdent f.GoImportPath
  [ "func (p *" ++ proxyName service ++ ") " ++ method.GoName ++ "(ctx " ++
      q (ident contextPackage "Context") ++ ", req *" ++ q method.Input ++ ") (*" ++
      q method.Output ++ ", error) \x7b",
    "info := &" ++ q (ident grpcPackage "UnaryServerInfo") ++ "\x7b",
    "Server: p." ++ service.GoName ++ "Server,",
    "FullMethod: " ++ lib.quote ("/" ++ service.FullName ++ "/" ++ method.Name) ++ ",",
    "\x7d",
    "handler := func(ctx " ++ q (ident contextPackage "Context") ++
      ", req any) (any, error) \x7b",
    "return p." ++ service.GoName ++ "Server." ++ method.GoName ++ "(ctx, req.(*" ++
      q method.Input ++ "))",
    "\x7d",
    "resp, err := p.interceptor(ctx, req, info, handler)",
    "if err != nil || resp == nil \x7b",
    "return nil, err",
    "\x7d",
    "return resp.(*" ++ q method.Output ++ "), nil",
    "\x7d",
    "" ]

/-- One pass of the loop over `service.Methods` (lines 196-218): `g` is the text
printed so far. -/
def proxyStep (lib : Lib) (f : File) (service : Service) (g : List String)
    (method : Method) : List String :=
  if !method.IsStreamingClient && !method.IsStreamingServer then
    g ++ proxyMethodLines lib f service method
  else g

/-- Lines 117-194 of main.go: everything printed before the loop over the methods. -/
def fixedLines (lib : Lib) (registerGateway : Bool) (p : Plugin) (f : File)
    (service : Service) : List String :=
  descriptorLines lib p f service ++
  [registerGatewayHeader lib f service] ++
  registerGatewayBody registerGateway service ++
  ["\x7d", ""] ++
  interceptorLines lib f service

/-- The function `generateFile`: the plugin after the call. -/
def generateFile (lib : Lib) (registerGateway : Bool) (p : Plugin) (f : File) : Plugin :=
  match f.Services with
  | [] => p
  | _ :: _ :: _ => p.Error .errMultiplyService
  | [service] =>
    p.NewGeneratedFile
      { filename := f.GeneratedFilenamePrefix ++ ".pb.bomboglot.go"
        goImportPath := f.GoImportPath
        lines := service.Methods.foldl (proxyStep lib f service)
          (fixedLines lib registerGateway p f service) }

/-! ## The run -/

/-- The body of the loop of `main` for one file: the validator, the plugin and the
log after the visit. -/
def visitFile (lib : Lib) (registerGateway : Bool)
    (st : uniqPackageValidator × Plugin × List String) (f : File) :
    uniqPackageValidator × Plugin × List String :=
  if !f.Generate then st
  else
    let r := checkFile lib st.1 st.2.1 st.2.2 f
    let p1 := validateFile lib r.2.1 f
    let p2 := generateFile lib registerGateway p1 f
    (r.1, p2, r.2.2)

/-- The function handed to `protogen.Options.Run` in `main`: `files` are the values
of `p.FilesByPath` in the order in which the map is ranged over. -/
def runPlugin (lib : Lib) (registerGateway : Bool) (p : Plugin) (files : List File) :
    uniqPackageValidator × Plugin × List String :=
  files.foldl (visitFile lib registerGateway)
    (uniqPackageValidator.empty, { p with supportedFeatures := 1 }, [])

/-- A run of the plugin and the response handed back to the compiler. -/
def runResponse (lib : Lib) (registerGateway : Bool) (p : Plugin) (files : List File) :
    Response :=
  (runPlugin lib registerGateway p files).2.1.Response

/-- A unary method `name` without HTTP option. -/
def unaryMethod (name : String) : Method :=
  { GoName := name, Name := name,
    Input := ident "example.com/api" (name ++ "Request"),
    Output := ident "example.com/api" (name ++ "Response"),
    IsStreamingClient := false, IsStreamingServer := false, Http := none }

/-- A service `name` with the given methods. -/
def sampleService (name : String) (methods : List Method) : Service :=
  { GoName := name, FullName := "api." ++ name, Methods := methods }

/-! ## The meaning of the emitted code

The generated file is Go text.  Its functions are given here as Lean functions over
an explicit world `σ` (whatever the interceptors and the service read and write).  A
call returns a result or panics. -/

namespace Emitted

/-- The result of a Go call: the returned values, or a panic. -/
inductive Outcome (α : Type) where
  | ret (a : α)
  | panic
  deriving DecidableEq, Repr

/-- A non-nil value of type `any`: its dynamic type, a pointer to a message of the
named Go type, and the pointer (0 for a nil pointer). -/
structure Dyn where
  ty : GoIdent
  ptr : Nat
  deriving DecidableEq, Repr

/-- The pair `(any, error)` returned by handlers and interceptors; `none` is nil. -/
abbrev Reply := Option Dyn × Option String

/-- The type `grpc.UnaryHandler`. -/
abbrev UnaryHandler (σ : Type) := Nat → Option Dyn → σ → Outcome Reply × σ

/-- A value of the interface `<Service>Server`: for the Go name of a unary method, the
context and the request pointer, the returned pointer and error. -/
abbrev Server (σ : Type) := String → Nat → Nat → σ → Outcome (Nat × Option String) × σ

/-- The type `grpc.UnaryServerInfo`. -/
structure UnaryServerInfo (σ : Type) where
  Server : Server σ
  FullMethod : String

/-- The type `grpc.UnaryServerInterceptor`, for a non-nil function value. -/
abbrev UnaryServerInterceptor (σ : Type) :=
  Nat → Option Dyn → UnaryServerInfo σ → UnaryHandler σ → σ → Outcome Reply × σ

/-- A call of a function value that may be nil: calling nil panics. -/
def invoke {σ : Type} (i : Option (UnaryServerInterceptor σ)) (ctx : Nat)
    (req : Option Dyn) (info : UnaryServerInfo σ) (handler : UnaryHandler σ) (w : σ) :
    Outcome Reply × σ :=
  match i with
  | none => (.panic, w)
  | some fn => fn ctx req info handler w

/-- The type assertion `x.(*T)`: it panics (`none`) on a nil interface and on a value
of another type. -/
def typeAssert (x : Option Dyn) (ty : GoIdent) : Option Nat :=
  match x with
  | none => none
  | some d => if d.ty = ty then some d.ptr else none

/-- Modelled from the spec: `ChainUnaryServer` belongs to go-grpc-middleware, which is
not part of main.go.  §4.3: `compose(C, new)` yields a function that runs `C` first,
passing the invocation of `new` as the inner handler of `C`, and `new` receives the
final handler. -/
def ChainUnaryServer {σ : Type} (c new : Option (UnaryServerInterceptor σ)) :
    UnaryServerInterceptor σ :=
  fun ctx req info handler w =>
    invoke c ctx req info (fun ctx1 req1 w1 => invoke new ctx1 req1 info handler w1) w

/-- The emitted type `<Service>ServiceDesc` (lines 140-144). -/
structure ServiceDesc (σ : Type) where
  svc : Server σ
  i : Option (UnaryServerInterceptor σ)

/-- The emitted constructor `New<Service>ServiceDesc` (lines 148-150). -/
def NewServiceDesc {σ : Type} (i : Server σ) : ServiceDesc σ := { svc := i, i := none }

/-- The emitted method `WithHTTPUnaryInterceptor` (lines 181-187). -/
def WithHTTPUnaryInterceptor {σ : Type} (d : ServiceDesc σ)
    (u : Option (UnaryServerInterceptor σ)) : ServiceDesc σ :=
  if d.i.isNone then { d with i := u }
  else { d with i := some (ChainUnaryServer d.i u) }

/-- The emitted type `proxy<Service>Server` (lines 190-193). -/
structure ProxyServer (σ : Type) where
  Server : Server σ
  interceptor : Option (UnaryServerInterceptor σ)

/-- The closure `handler` of the emitted proxy method (lines 207-209): it asserts the
request to the input type and calls the method of the embedded server. -/
def proxyHandler {σ : Type} (method : Method) (p : ProxyServer σ) : UnaryHandler σ :=
  fun ctx req w =>
    match typeAssert req method.Input with
    | none => (.panic, w)
    | some r =>
      match p.Server method.GoName ctx r w with
      | (.ret (resp, err), w1) => (.ret (some { ty := method.Output, ptr := resp }, err), w1)
      | (.panic, w1) => (.panic, w1)

/-- The emitted proxy method of `method` (lines 201-215). -/
def proxyMethod {σ : Type} (service : Service) (method : Method) (p : ProxyServer σ)
    (ctx : Nat) (req : Nat) (w : σ) : Outcome (Nat × Option String) × σ :=
  let info : UnaryServerInfo σ :=
    { Server := p.Server, FullMethod := "/" ++ service.FullName ++ "/" ++ method.Name }
  let handler : UnaryHandler σ := proxyHandler method p
  match invoke p.interceptor ctx (some { ty := method.Input, ptr := req }) info handler w with
  | (.panic, w1) => (.panic, w1)
  | (.ret (resp, err), w1) =>
    if err.isSome || resp.isNone then (.ret (0, err), w1)
    else
      match typeAssert resp method.Output with
      | none => (.panic, w1)
      | some v => (.ret (v, none), w1)

/-- What `Register<Service>HandlerServer` was given as server: the service itself or
a proxy value. -/
inductive Registered (σ : Type) where
  | service (svc : Server σ)
  | proxy (p : ProxyServer σ)

/-- The emitted method `RegisterGateway` (lines 164-177), for the flag and the service
the file was generated with: the returned error and the server registered on the
mux, if any, starting from a mux without registration. -/
def RegisterGateway {σ : Type} (registerGateway : Bool) (service : Service)
    (d : ServiceDesc σ) : Option String × Option (Registered σ) :=
  if registerGateway || methodsHaveHttpOptions service.Methods then
    if d.i.isNone then (none, some (.service d.svc))
    else (none, some (.proxy { Server := d.svc, interceptor := d.i }))
  else (none, none)

/-- A call of `method` on the registered server.  A proxy value has a method of its
own for the methods that got a proxy method (lines 196-218) and inherits the others
from the embedded server. -/
def Registered.call {σ : Type} (r : Registered σ) (service : Service) (method : Method)
    (ctx : Nat) (req : Nat) (w : σ) : Outcome (Nat × Option String) × σ :=
  match r with
  | .service svc => svc method.GoName ctx req w
  | .proxy p =>
    if !method.IsStreamingClient && !method.IsStreamingServer then
      proxyMethod service method p ctx req w
    else p.Server method.GoName ctx req w

/-- A gateway call of `method` after `RegisterGateway`: `none` when nothing was
registered. -/
def gatewayCall {σ : Type} (registerGateway : Bool) (service : Service)
    (d : ServiceDesc σ) (method : Method) (ctx : Nat) (req : Nat) (w : σ) :
    Option (Outcome (Nat × Option String) × σ) :=
  (RegisterGateway registerGateway service d).2.map
    (fun r => r.call service method ctx req w)

/-- Interceptors attached one after another, each by `WithHTTPUnaryInterceptor`. -/
def attachAll {σ : Type} (d : ServiceDesc σ) (us : List (UnaryServerInterceptor σ)) :
    ServiceDesc σ :=
  us.foldl (fun d1 u => WithHTTPUnaryInterceptor d1 (some u)) d

/-- The call order "first interceptor outermost": each interceptor receives the rest
of the list, ending in `handler`, as its handler. -/
def nested {σ : Type} : List (UnaryServerInterceptor σ) → UnaryServerInterceptor σ
  | [] => fun ctx req _ handler w => handler ctx req w
  | u :: rest => fun ctx req info handler w =>
    u ctx req info (fun ctx1 req1 w1 => nested rest ctx1 req1 info handler w1) w

/-- What an observer sees of a call. -/
inductive Event where
  | enter (label : String)
  | leave (label : String) (resp : Option Dyn) (err : Option String)
  | served (method : String) (req : Nat)
  deriving DecidableEq, Repr

/-- Whether an event is a call of the service method. -/
def Event.isServed : Event → Bool
  | .served _ _ => true
  | _ => false

/-- An interceptor that records its entry, calls the handler once with what it was
given, records what comes back and returns it unchanged. -/
def observer (label : String) : UnaryServerInterceptor (List Event) :=
  fun ctx req _ handler w =>
    match handler ctx req (w ++ [Event.enter label]) with
    | (.ret (resp, err), w1) => (.ret (resp, err), w1 ++ [Event.leave label resp err])
    | (.panic, w1) => (.panic, w1)

/-- A service whose methods record the call and return `resp` and `err`. -/
def recordingServer (resp : Nat) (err : Option String) : Server (List Event) :=
  fun name _ req w => (.ret (resp, err), w ++ [Event.served name req])

end Emitted

/-- A sample instance of the library functions, for concrete runs: quoting a string
without special characters, and qualifying an identifier by its import path. -/
def sampleLib : Lib :=
  { quote := fun s => "\"" ++ s ++ "\""
    qualifiedGoIdent := fun g ident =>
      if ident.GoImportPath = g then ident.GoName
      else ident.GoImportPath ++ "." ++ ident.GoName }

/-- A file with the given name and package and no service. -/
def protoFile (name pkg : String) : File :=
  { Name := some name, Package := some pkg, Generate := true, Services := [],
    GeneratedFilenamePrefix := name, GoImportPath := "example.com/api",
    GoPackageName := "api" }

/-- The file `foo/bar.proto` of package `pkg` with one service `S` without methods. -/
def barFile : File :=
  { protoFile "foo/bar.proto" "pkg" with Services := [sampleService "S" []] }

/-- A service with a unary, a client-streaming, a server-streaming and a
bidirectional method. -/
def mixedService : Service :=
  sampleService "S"
    [unaryMethod "Get",
     { unaryMethod "Put" with IsStreamingClient := true },
     { unaryMethod "List" with IsStreamingServer := true },
     { unaryMethod "Chat" with IsStreamingClient := true, IsStreamingServer := true }]

/-- The file `foo/mixed.proto` declaring `mixedService`. -/
def mixedFile : File :=
  { protoFile "foo/mixed.proto" "pkg" with Services := [mixedService] }

/-- The shape of the first line of a proxy method: it starts with `func (` and ends
with an opening brace.  Used to tell the proxy methods from the rest of the text. -/
def proxyHeadLike (s : String) : Prop :=
  s.data.take 6 = ['f', 'u', 'n', 'c', ' ', '('] ∧ s.data.getLast? = some '\x7b'

/-- The validator flags a list started from `pv`: some file disagrees with the entry
recorded for its directory, or two files of one directory disagree. -/
def Flagged (pv : uniqPackageValidator) (l : List File) : Prop :=
  (∃ f ∈ l, ∃ q, pv.dir2pkg (Dir f.GetName) = some q ∧ f.GetPackage ≠ q) ∨
  (∃ f ∈ l, ∃ g ∈ l, Dir f.GetName = Dir g.GetName ∧ f.GetPackage ≠ g.GetPackage)

/-! # Theorems -/

/-! ## The validator: lemmas -/

theorem checkFile_validator (lib : Lib) (pv : uniqPackageValidator) (p : Plugin)
    (log : List String) (f : File) :
    (checkFile lib pv p log f).1 = pv.set (Dir f.GetName) f.GetPackage := rfl

theorem checkFile_raised (lib : Lib) (pv : uniqPackageValidator) (p : Plugin)
    (log : List String) (f : File) :
    (checkFile lib pv p log f).2.1.raised =
      if checkFileConflict pv f = true then p.raised ++ [GenError.errValidationFails]
      else p.raised := by
  unfold checkFile checkFileConflict
  cases h : pv.dir2pkg (Dir f.GetName) with
  | none => simp [h]
  | some pkg =>
    by_cases hp : f.GetPackage = pkg
    · simp [h, hp]
    · simp [h, hp, Plugin.Error]

theorem checkFileConflict_iff (pv : uniqPackageValidator) (f : File) :
    checkFileConflict pv f = true ↔
      ∃ q, pv.dir2pkg (Dir f.GetName) = some q ∧ f.GetPackage ≠ q := by
  unfold checkFileConflict
  cases h : pv.dir2pkg (Dir f.GetName) with
  | none => simp
  | some pkg => simp

theorem flagged_cons (pv : uniqPackageValidator) (f : File) (t : List File) :
    Flagged pv (f :: t) ↔
      checkFileConflict pv f = true ∨ Flagged (pv.set (Dir f.GetName) f.GetPackage) t := by
  rw [checkFileConflict_iff]
  constructor
  · rintro (⟨g, hg, q, hq, hne⟩ | ⟨a, ha, b, hb, hd, hne⟩)
    · rcases List.mem_cons.1 hg with rfl | hgt
      · exact Or.inl ⟨q, hq, hne⟩
      · by_cases hd : Dir g.GetName = Dir f.GetName
        · by_cases hfq : f.GetPackage = q
          · refine Or.inr (Or.inl ⟨g, hgt, f.GetPackage, ?_, ?_⟩)
            · simp [uniqPackageValidator.set, hd]
            · rw [hfq]; exact hne
          · rw [hd] at hq
            exact Or.inl ⟨q, hq, hfq⟩
        · refine Or.inr (Or.inl ⟨g, hgt, q, ?_, hne⟩)
          simp [uniqPackageValidator.set, hd, hq]
    · rcases List.mem_cons.1 ha with rfl | hat <;> rcases List.mem_cons.1 hb with rfl | hbt
      · exact absurd rfl hne
      · refine Or.inr (Or.inl ⟨b, hbt, a.GetPackage, ?_, fun h => hne h.symm⟩)
        simp [uniqPackageValidator.set, hd]
      · refine Or.inr (Or.inl ⟨a, hat, b.GetPackage, ?_, hne⟩)
        simp [uniqPackageValidator.set, hd]
      · exact Or.inr (Or.inr ⟨a, hat, b, hbt, hd, hne⟩)
  · rintro (⟨q, hq, hne⟩ | ⟨g, hg, q, hq, hne⟩ | ⟨a, ha, b, hb, hd, hne⟩)
    · exact Or.inl ⟨f, List.mem_cons_self _ _, q, hq, hne⟩
    · by_cases hd : Dir g.GetName = Dir f.GetName
      · have hq2 : q = f.GetPackage := by
          simp [uniqPackageValidator.set, hd] at hq
          exact hq.symm
        subst hq2
        exact Or.inr ⟨g, List.mem_cons_of_mem _ hg, f, List.mem_cons_self _ _, hd, hne⟩
      · refine Or.inl ⟨g, List.mem_cons_of_mem _ hg, q, ?_, hne⟩
        simpa [uniqPackageValidator.set, hd] using hq
    · exact Or.inr ⟨a, List.mem_cons_of_mem _ ha, b, List.mem_cons_of_mem _ hb, hd, hne⟩

theorem mem_raised_checkFiles (lib : Lib) (l : List File) :
    ∀ (pv : uniqPackageValidator) (p : Plugin) (log : List String),
      GenError.errValidationFails ∈ (checkFiles lib pv p log l).2.1.raised ↔
        GenError.errValidationFails ∈ p.raised ∨ Flagged pv l := by
  induction l with
  | nil =>
    intro pv p log
    simp [checkFiles, Flagged]
  | cons f t ih =>
    intro pv p log
    rw [flagged_cons]
    show GenError.errValidationFails ∈
      (checkFiles lib (checkFile lib pv p log f).1 (checkFile lib pv p log f).2.1
        (checkFile lib pv p log f).2.2 t).2.1.raised ↔ _
    rw [ih, checkFile_raised, checkFile_validator]
    by_cases hc : checkFileConflict pv f = true
    · simp [hc]
    · simp [hc]

theorem flagged_empty (l : List File) :
    Flagged uniqPackageValidator.empty l ↔
      ∃ f ∈ l, ∃ g ∈ l, Dir f.GetName = Dir g.GetName ∧ f.GetPackage ≠ g.GetPackage := by
  simp [Flagged, uniqPackageValidator.empty]

theorem conflict_raised_iff (lib : Lib) (l : List File) :
    GenError.errValidationFails ∈
        (checkFiles lib uniqPackageValidator.empty Plugin.init [] l).2.1.raised ↔
      ∃ f ∈ l, ∃ g ∈ l, Dir f.GetName = Dir g.GetName ∧ f.GetPackage ≠ g.GetPackage := by
  rw [mem_raised_checkFiles, flagged_empty]
  simp [Plugin.init]

theorem getLast?_cons_of_getLast? {α : Type} (a b : α) (xs : List α)
    (h : xs.getLast? = some b) : (a :: xs).getLast? = some b := by
  cases xs with
  | nil => simp at h
  | cons x t => rw [List.getLast?_cons_cons]; exact h

theorem dir2pkg_checkFiles (lib : Lib) (d : String) (l : List File) :
    ∀ (pv : uniqPackageValidator) (p : Plugin) (log : List String),
      (checkFiles lib pv p log l).1.dir2pkg d =
        match (l.filter (fun g => decide (Dir g.GetName = d))).getLast? with
        | some g => some g.GetPackage
        | none => pv.dir2pkg d := by
  induction l with
  | nil => intro pv p log; simp [checkFiles]
  | cons f t ih =>
    intro pv p log
    show (checkFiles lib (checkFile lib pv p log f).1 (checkFile lib pv p log f).2.1
        (checkFile lib pv p log f).2.2 t).1.dir2pkg d = _
    rw [ih, checkFile_validator]
    cases hl : (t.filter (fun g => decide (Dir g.GetName = d))).getLast? with
    | some g =>
      by_cases hd : Dir f.GetName = d
      · have h2 := getLast?_cons_of_getLast? f g _ hl
        simp only [List.filter_cons, hd, decide_True, if_true, h2, hl]
      · simp [List.filter_cons, hd, hl]
    | none =>
      have hnil : t.filter (fun g => decide (Dir g.GetName = d)) = [] :=
        List.getLast?_eq_none_iff.1 hl
      by_cases hd : Dir f.GetName = d
      · subst hd
        simp [List.filter_cons, hnil, uniqPackageValidator.set]
      · have hd2 : ¬ d = Dir f.GetName := fun h => hd h.symm
        simp [List.filter_cons, hd, hnil, uniqPackageValidator.set, hd2]

/-! ## The validator: claims -/

/-- C1. For a non-empty sequence of files that all lie in one directory, visited by
`checkFile` in order from an empty `dir2pkg` map, the diagnostic `errValidationFails`
is raised for at least one file if and only if the files do not all declare the same
package.  (The equivalence needs no assumption of non-emptiness.) -/
theorem same_directory_conflict_iff (lib : Lib) (files : List File)
    (hdir : ∀ f ∈ files, ∀ g ∈ files, Dir f.GetName = Dir g.GetName) :
    GenError.errValidationFails ∈
        (checkFiles lib uniqPackageValidator.empty Plugin.init [] files).2.1.raised ↔
      ¬ ∀ f ∈ files, ∀ g ∈ files, f.GetPackage = g.GetPackage := by
  rw [conflict_raised_iff]
  constructor
  · rintro ⟨f, hf, g, hg, -, hpk⟩ hall
    exact hpk (hall f hf g hg)
  · intro hnot
    by_contra hno
    apply hnot
    intro f hf g hg
    by_contra hpk
    exact hno ⟨f, hf, g, hg, hdir f hf g hg, hpk⟩

/-- Witness of C1: `foo/bar.proto` and `foo/baz.proto` lie in the directory `foo` and
declare `pkg` and `pkg2`; the diagnostic is raised. -/
theorem same_directory_conflict_iff_witness :
    GenError.errValidationFails ∈
        (checkFiles sampleLib uniqPackageValidator.empty Plugin.init []
          [protoFile "foo/bar.proto" "pkg", protoFile "foo/baz.proto" "pkg2"]).2.1.raised ∧
      ¬ ∀ f ∈ [protoFile "foo/bar.proto" "pkg", protoFile "foo/baz.proto" "pkg2"],
          ∀ g ∈ [protoFile "foo/bar.proto" "pkg", protoFile "foo/baz.proto" "pkg2"],
            f.GetPackage = g.GetPackage := by
  have h := same_directory_conflict_iff sampleLib
    [protoFile "foo/bar.proto" "pkg", protoFile "foo/baz.proto" "pkg2"]
    (by decide)
  have hr : GenError.errValidationFails ∈
      (checkFiles sampleLib uniqPackageValidator.empty Plugin.init []
        [protoFile "foo/bar.proto" "pkg", protoFile "foo/baz.proto" "pkg2"]).2.1.raised := by
    decide
  exact ⟨hr, h.1 hr⟩

/-- C7. Conflict detection does not depend on the order of the files: a list and any
permutation of it are flagged together, and a list is flagged exactly when two of its
files share a directory and declare different packages. -/
theorem conflict_order_independent (lib : Lib) (l₁ l₂ : List File) (hperm : l₁.Perm l₂) :
    (GenError.errValidationFails ∈
        (checkFiles lib uniqPackageValidator.empty Plugin.init [] l₁).2.1.raised ↔
      GenError.errValidationFails ∈
        (checkFiles lib uniqPackageValidator.empty Plugin.init [] l₂).2.1.raised) ∧
    (GenError.errValidationFails ∈
        (checkFiles lib uniqPackageValidator.empty Plugin.init [] l₁).2.1.raised ↔
      ∃ f ∈ l₁, ∃ g ∈ l₁, Dir f.GetName = Dir g.GetName ∧ f.GetPackage ≠ g.GetPackage) := by
  refine ⟨?_, conflict_raised_iff lib l₁⟩
  rw [conflict_raised_iff, conflict_raised_iff]
  constructor
  · rintro ⟨f, hf, g, hg, h⟩
    exact ⟨f, hperm.mem_iff.1 hf, g, hperm.mem_iff.1 hg, h⟩
  · rintro ⟨f, hf, g, hg, h⟩
    exact ⟨f, hperm.mem_iff.2 hf, g, hperm.mem_iff.2 hg, h⟩

/-- Witness of C7: three files of `foo`, the odd one first or last. -/
theorem conflict_order_independent_witness :
    (GenError.errValidationFails ∈
        (checkFiles sampleLib uniqPackageValidator.empty Plugin.init []
          [protoFile "foo/a.proto" "pkg2", protoFile "foo/b.proto" "pkg",
            protoFile "foo/c.proto" "pkg"]).2.1.raised ↔
      GenError.errValidationFails ∈
        (checkFiles sampleLib uniqPackageValidator.empty Plugin.init []
          [protoFile "foo/b.proto" "pkg", protoFile "foo/c.proto" "pkg",
            protoFile "foo/a.proto" "pkg2"]).2.1.raised) :=
  (conflict_order_independent sampleLib
    [protoFile "foo/a.proto" "pkg2", protoFile "foo/b.proto" "pkg",
      protoFile "foo/c.proto" "pkg"]
    [protoFile "foo/b.proto" "pkg", protoFile "foo/c.proto" "pkg",
      protoFile "foo/a.proto" "pkg2"]
    (by decide)).1

/-- C8, as stated, fails: after `a/x.proto` (package `p1`) and `a/y.proto` (package
`p2`) the entry of the directory `a` is `p2`, not the first-seen `p1`; and a third
file `a/z.proto` with package `p2` raises nothing, although it differs from `p1`. -/
theorem first_seen_not_canonical :
    ([protoFile "a/x.proto" "p1", protoFile "a/y.proto" "p2"].filter
        (fun g => decide (Dir g.GetName = "a"))).head? = some (protoFile "a/x.proto" "p1") ∧
      (checkFiles sampleLib uniqPackageValidator.empty Plugin.init []
        [protoFile "a/x.proto" "p1", protoFile "a/y.proto" "p2"]).1.dir2pkg "a" = some "p2" ∧
      (checkFiles sampleLib uniqPackageValidator.empty Plugin.init []
        [protoFile "a/x.proto" "p1", protoFile "a/y.proto" "p2"]).1.dir2pkg "a" ≠
          some (protoFile "a/x.proto" "p1").GetPackage ∧
      Dir (protoFile "a/z.proto" "p2").GetName = "a" ∧
      checkFileConflict
        (checkFiles sampleLib uniqPackageValidator.empty Plugin.init []
          [protoFile "a/x.proto" "p1", protoFile "a/y.proto" "p2"]).1
        (protoFile "a/z.proto" "p2") = false := by
  decide

/-- C8, amended. The last-seen package of a directory is the recorded one: after any
sequence of `checkFile` calls from an empty map the `dir2pkg` entry of a directory is
the package of the file visited last in that directory (and is absent when there is
none), and the next file raises the diagnostic exactly when its package differs from
that of the file visited last in its directory. -/
theorem last_seen_package_recorded (lib : Lib) (visited : List File) (f : File) :
    (∀ d : String,
      (checkFiles lib uniqPackageValidator.empty Plugin.init [] visited).1.dir2pkg d =
        ((visited.filter (fun g => decide (Dir g.GetName = d))).getLast?).map
          File.GetPackage) ∧
    (checkFileConflict
        (checkFiles lib uniqPackageValidator.empty Plugin.init [] visited).1 f = true ↔
      ∃ g, (visited.filter (fun g => decide (Dir g.GetName = Dir f.GetName))).getLast? =
          some g ∧ f.GetPackage ≠ g.GetPackage) := by
  have key : ∀ d : String,
      (checkFiles lib uniqPackageValidator.empty Plugin.init [] visited).1.dir2pkg d =
        ((visited.filter (fun g => decide (Dir g.GetName = d))).getLast?).map
          File.GetPackage := by
    intro d
    rw [dir2pkg_checkFiles]
    cases (visited.filter (fun g => decide (Dir g.GetName = d))).getLast? with
    | none => simp [uniqPackageValidator.empty]
    | some g => simp
  refine ⟨key, ?_⟩
  rw [checkFileConflict_iff, key]
  cases (visited.filter (fun g => decide (Dir g.GetName = Dir f.GetName))).getLast? with
  | none => simp
  | some g => simp

/-! ## The generator: lemmas -/

theorem methodsHaveHttpOptions_iff (methods : List Method) :
    methodsHaveHttpOptions methods = true ↔ ∃ m ∈ methods, m.Http.isSome = true := by
  induction methods with
  | nil => simp [methodsHaveHttpOptions]
  | cons m rest ih =>
    unfold methodsHaveHttpOptions
    cases h : m.Http with
    | none => simp [ih, h]
    | some r => simp [h]

theorem proxyMethodLines_ne_nil (lib : Lib) (f : File) (service : Service) (m : Method) :
    proxyMethodLines lib f service m ≠ [] := by
  simp [proxyMethodLines]

theorem foldl_proxyStep (lib : Lib) (f : File) (service : Service) (methods : List Method) :
    ∀ g : List String,
      methods.foldl (proxyStep lib f service) g =
        g ++ ((methods.filter
          (fun m => !m.IsStreamingClient && !m.IsStreamingServer)).map
            (proxyMethodLines lib f service)).flatten := by
  induction methods with
  | nil => intro g; simp
  | cons m rest ih =>
    intro g
    rw [List.foldl_cons, ih]
    by_cases hm : (!m.IsStreamingClient && !m.IsStreamingServer) = true
    · simp [proxyStep, List.filter_cons, hm]
    · simp [proxyStep, List.filter_cons, hm]

theorem generateFile_one (lib : Lib) (registerGateway : Bool) (p : Plugin) (f : File)
    (service : Service) (h : f.Services = [service]) :
    generateFile lib registerGateway p f =
      p.NewGeneratedFile
        { filename := f.GeneratedFilenamePrefix ++ ".pb.bomboglot.go"
          goImportPath := f.GoImportPath
          lines := fixedLines lib registerGateway p f service ++
            ((service.Methods.filter
              (fun m => !m.IsStreamingClient && !m.IsStreamingServer)).map
                (proxyMethodLines lib f service)).flatten } := by
  unfold generateFile
  rw [h]
  simp only [foldl_proxyStep]

theorem getLast?_data_append (x a : String) (c : Char) (h : a.data.getLast? = some c) :
    (x ++ a).data.getLast? = some c := by
  rw [String.data_append, List.getLast?_append, h]
  rfl

theorem not_proxyHeadLike_of_take (n : Nat) (s : String) (hn : n ≤ 6)
    (h : s.data.take n ≠ ['f', 'u', 'n', 'c', ' ', '('].take n) : ¬ proxyHeadLike s := by
  intro hp
  apply h
  have := congrArg (List.take n) hp.1
  rw [List.take_take, Nat.min_eq_left hn] at this
  exact this

theorem not_proxyHeadLike_of_last (s : String) (c : Char) (hc : c ≠ '\x7b')
    (h : s.data.getLast? = some c) : ¬ proxyHeadLike s := by
  intro hp
  rw [hp.2] at h
  exact hc (Option.some.inj h).symm

set_option linter.unusedTactic false in
set_option linter.unreachableTactic false in
theorem descriptorLines_not_proxyHeadLike (lib : Lib) (p : Plugin) (f : File)
    (service : Service) : ∀ l ∈ descriptorLines lib p f service, ¬ proxyHeadLike l := by
  unfold descriptorLines
  cases f.Name <;>
  simp only [List.forall_mem_append, List.forall_mem_cons, List.not_mem_nil, false_imp_iff,
    imp_true_iff, implies_true, and_true] <;>
  and_intros <;>
  first
    | (refine not_proxyHeadLike_of_take 1 _ (by decide) ?_; simp [String.data_append] <;> fail)
    | (refine not_proxyHeadLike_of_take 5 _ (by decide) ?_; simp [String.data_append] <;> fail)
    | (refine not_proxyHeadLike_of_take 6 _ (by decide) ?_; simp [String.data_append] <;> fail)

set_option linter.unusedTactic false in
set_option linter.unreachableTactic false in
theorem interceptorLines_not_proxyHeadLike (lib : Lib) (f : File) (service : Service) :
    ∀ l ∈ interceptorLines lib f service, ¬ proxyHeadLike l := by
  unfold interceptorLines
  simp only [List.forall_mem_append, List.forall_mem_cons, List.not_mem_nil, false_imp_iff,
    imp_true_iff, implies_true, and_true]
  and_intros <;>
  first
    | (refine not_proxyHeadLike_of_take 1 _ (by decide) ?_; simp [String.data_append] <;> fail)
    | (refine not_proxyHeadLike_of_take 5 _ (by decide) ?_; simp [String.data_append] <;> fail)
    | (refine not_proxyHeadLike_of_last _ 'r' (by decide) ?_
       exact getLast?_data_append _ _ _ (by decide))

set_option linter.unusedTactic false in
set_option linter.unreachableTactic false in
theorem fullRegistration_not_proxyHeadLike (service : Service) :
    ∀ l ∈ fullRegistration service, ¬ proxyHeadLike l := by
  unfold fullRegistration
  simp only [List.forall_mem_append, List.forall_mem_cons, List.not_mem_nil, false_imp_iff,
    imp_true_iff, implies_true, and_true]
  and_intros <;>
  first
    | (refine not_proxyHeadLike_of_take 1 _ (by decide) ?_; simp [String.data_append] <;> fail)
    | (refine not_proxyHeadLike_of_last _ ',' (by decide) ?_
       exact getLast?_data_append _ _ _ (by decide))

theorem registerGatewayBody_not_proxyHeadLike (registerGateway : Bool) (service : Service) :
    ∀ l ∈ registerGatewayBody registerGateway service, ¬ proxyHeadLike l := by
  unfold registerGatewayBody
  cases (registerGateway || methodsHaveHttpOptions service.Methods) with
  | true => exact fullRegistration_not_proxyHeadLike service
  | false =>
    intro l hl
    have hl2 : l = "return nil" := by simpa [noOpRegistration] using hl
    subst hl2
    exact not_proxyHeadLike_of_take 1 _ (by decide) (by decide)

theorem registerGatewayHeader_not_proxyHeadLike (lib : Lib) (f : File) (service : Service) :
    ¬ proxyHeadLike (registerGatewayHeader lib f service) := by
  unfold registerGatewayHeader
  refine not_proxyHeadLike_of_take 5 _ (by decide) ?_
  simp [String.data_append]

theorem fixedLines_not_proxyHeadLike (lib : Lib) (registerGateway : Bool) (p : Plugin)
    (f : File) (service : Service) :
    ∀ l ∈ fixedLines lib registerGateway p f service, ¬ proxyHeadLike l := by
  intro l hl
  unfold fixedLines at hl
  simp only [List.mem_append, List.mem_cons, List.mem_singleton, List.not_mem_nil,
    or_false] at hl
  rcases hl with (((h | h) | h) | h) | h
  · exact descriptorLines_not_proxyHeadLike lib p f service l h
  · rw [h]; exact registerGatewayHeader_not_proxyHeadLike lib f service
  · exact registerGatewayBody_not_proxyHeadLike registerGateway service l h
  · rcases h with h | h
    · rw [h]; exact not_proxyHeadLike_of_take 1 _ (by decide) (by decide)
    · rw [h]; exact not_proxyHeadLike_of_take 1 _ (by decide) (by decide)
  · exact interceptorLines_not_proxyHeadLike lib f service l h

theorem proxyHead_proxyHeadLike (a b c d e : String) :
    proxyHeadLike ("func (p *" ++ a ++ ") " ++ b ++ "(ctx " ++ c ++ ", req *" ++ d ++
      ") (*" ++ e ++ ", error) \x7b") := by
  constructor
  · simp [String.data_append]
  · exact getLast?_data_append _ _ _ (by decide)

/-! ## The generator: claims -/

/-- C5. `generateFile` creates a generated file exactly when the file declares one
service, raises `errMultiplyService` exactly when it declares two or more, and leaves
the plugin untouched when it declares none. -/
theorem generateFile_service_count (lib : Lib) (registerGateway : Bool) (p : Plugin)
    (f : File) :
    ((∃ g, (generateFile lib registerGateway p f).genFiles = p.genFiles ++ [g]) ↔
        f.Services.length = 1) ∧
    (f.Services.length ≠ 1 → (generateFile lib registerGateway p f).genFiles = p.genFiles) ∧
    ((generateFile lib registerGateway p f).raised =
        p.raised ++ [GenError.errMultiplyService] ↔ 2 ≤ f.Services.length) ∧
    (f.Services.length < 2 → (generateFile lib registerGateway p f).raised = p.raised) ∧
    (f.Services.length = 0 → generateFile lib registerGateway p f = p) := by
  unfold generateFile
  cases hs : f.Services with
  | nil => simp
  | cons s rest =>
    cases rest with
    | nil => simp [Plugin.NewGeneratedFile]
    | cons s2 rest2 => simp [Plugin.Error]

/-- Witness of C5: a file with one service, with two services and with none. -/
theorem generateFile_service_count_witness :
    (∃ g, (generateFile sampleLib true Plugin.init barFile).genFiles =
      Plugin.init.genFiles ++ [g]) ∧
    (generateFile sampleLib true Plugin.init
        { barFile with Services := [sampleService "S" [], sampleService "T" []] }).raised =
      Plugin.init.raised ++ [GenError.errMultiplyService] ∧
    generateFile sampleLib true Plugin.init (protoFile "foo/bar.proto" "pkg") =
      Plugin.init :=
  ⟨(generateFile_service_count sampleLib true Plugin.init barFile).1.2 rfl,
   (generateFile_service_count sampleLib true Plugin.init
      { barFile with Services := [sampleService "S" [], sampleService "T" []] }).2.2.1.2
        (by decide),
   (generateFile_service_count sampleLib true Plugin.init
      (protoFile "foo/bar.proto" "pkg")).2.2.2.2 rfl⟩

/-- C2. For a file with one service and either value of the flag, the body printed for
`RegisterGateway` is the full registration (the two calls of
`Register<Service>HandlerServer`, on the service and on the proxy value) if and only if
the flag is true or some method of the service carries the HTTP option; otherwise it
is the single line `return nil`.  The body stands in the generated file between the
signature of `RegisterGateway` and the closing brace.  In particular a service with
an annotated method gets the full registration when the flag is false. -/
theorem gateway_policy (lib : Lib) (p : Plugin) (f : File) (service : Service)
    (h : f.Services = [service]) :
    (∀ registerGateway : Bool,
      registerGatewayBody registerGateway service =
          [ "if d.i == nil \x7b",
            "return Register" ++ service.GoName ++ "HandlerServer(ctx, mux, d.svc)",
            "\x7d",
            "return Register" ++ service.GoName ++ "HandlerServer(ctx, mux, &" ++
              ("proxy" ++ service.GoName ++ "Server") ++ "\x7b",
            service.GoName ++ "Server: d.svc,",
            "interceptor: d.i,",
            "\x7d)" ] ↔
        (registerGateway = true ∨ ∃ m ∈ service.Methods, m.Http.isSome = true)) ∧
    (∀ registerGateway : Bool,
      registerGatewayBody registerGateway service = ["return nil"] ↔
        ¬ (registerGateway = true ∨ ∃ m ∈ service.Methods, m.Http.isSome = true)) ∧
    (∀ registerGateway : Bool, ∃ g pre post,
      generateFile lib registerGateway p f = p.NewGeneratedFile g ∧
      g.lines = pre ++
        ["func(d *" ++ (service.GoName ++ "ServiceDesc") ++ ") RegisterGateway(ctx " ++
          lib.qualifiedGoIdent f.GoImportPath { GoName := "Context", GoImportPath := "context" } ++
          ", mux *" ++
          lib.qualifiedGoIdent f.GoImportPath
            { GoName := "ServeMux",
              GoImportPath := "github.com/grpc-ecosystem/grpc-gateway/v2/runtime" } ++
          ") error \x7b"] ++
        registerGatewayBody registerGateway service ++ ["\x7d"] ++ post) := by
  have hfull : fullRegistration service =
      [ "if d.i == nil \x7b",
        "return Register" ++ service.GoName ++ "HandlerServer(ctx, mux, d.svc)",
        "\x7d",
        "return Register" ++ service.GoName ++ "HandlerServer(ctx, mux, &" ++
          ("proxy" ++ service.GoName ++ "Server") ++ "\x7b",
        service.GoName ++ "Server: d.svc,",
        "interceptor: d.i,",
        "\x7d)" ] := rfl
  have hne : fullRegistration service ≠ noOpRegistration := by
    intro he
    have := congrArg List.length he
    simp [fullRegistration, noOpRegistration] at this
  have hcond : ∀ registerGateway : Bool,
      (registerGateway || methodsHaveHttpOptions service.Methods) = true ↔
        (registerGateway = true ∨ ∃ m ∈ service.Methods, m.Http.isSome = true) := by
    intro registerGateway
    rw [Bool.or_eq_true, methodsHaveHttpOptions_iff]
  refine ⟨?_, ?_, ?_⟩
  · intro registerGateway
    rw [← hcond, ← hfull]
    unfold registerGatewayBody
    cases (registerGateway || methodsHaveHttpOptions service.Methods) with
    | true => simp
    | false =>
      simp only [Bool.false_eq_true, if_false, iff_false]
      intro he
      exact hne he.symm
  · intro registerGateway
    rw [← hcond]
    unfold registerGatewayBody
    cases (registerGateway || methodsHaveHttpOptions service.Methods) with
    | true =>
      simp only [if_true, not_true, iff_false]
      exact hne
    | false => simp [noOpRegistration]
  · intro registerGateway
    refine ⟨_, descriptorLines lib p f service,
      [""] ++ interceptorLines lib f service ++
        ((service.Methods.filter
          (fun m => !m.IsStreamingClient && !m.IsStreamingServer)).map
            (proxyMethodLines lib f service)).flatten,
      generateFile_one lib registerGateway p f service h, ?_⟩
    have hhead : registerGatewayHeader lib f service =
        "func(d *" ++ (service.GoName ++ "ServiceDesc") ++ ") RegisterGateway(ctx " ++
          lib.qualifiedGoIdent f.GoImportPath { GoName := "Context", GoImportPath := "context" } ++
          ", mux *" ++
          lib.qualifiedGoIdent f.GoImportPath
            { GoName := "ServeMux",
              GoImportPath := "github.com/grpc-ecosystem/grpc-gateway/v2/runtime" } ++
          ") error \x7b" := rfl
    rw [← hhead]
    simp [fixedLines]

/-- Witness of C2: with the flag off, a service `S` with an annotated method still gets
the registration calls, and without the annotation it gets `return nil`. -/
theorem gateway_policy_witness :
    registerGatewayBody false
        (sampleService "S" [{ unaryMethod "Get" with Http := some { pattern := "/v1/get" } }]) =
      [ "if d.i == nil \x7b",
        "return RegisterSHandlerServer(ctx, mux, d.svc)",
        "\x7d",
        "return RegisterSHandlerServer(ctx, mux, &proxySServer\x7b",
        "SServer: d.svc,",
        "interceptor: d.i,",
        "\x7d)" ] ∧
    registerGatewayBody false (sampleService "S" [unaryMethod "Get"]) = ["return nil"] :=
  ⟨((gateway_policy sampleLib Plugin.init
      { protoFile "foo/bar.proto" "pkg" with
        Services :=
          [sampleService "S"
            [{ unaryMethod "Get" with Http := some { pattern := "/v1/get" } }]] }
      (sampleService "S" [{ unaryMethod "Get" with Http := some { pattern := "/v1/get" } }])
      rfl).1 false).2 (Or.inr ⟨_, List.mem_singleton.2 rfl, rfl⟩),
   ((gateway_policy sampleLib Plugin.init
      { protoFile "foo/bar.proto" "pkg" with
        Services := [sampleService "S" [unaryMethod "Get"]] }
      (sampleService "S" [unaryMethod "Get"]) rfl).2.1 false).2 (by decide)⟩

/-- C4. For a file with one service, one pass of the loop prints the proxy method of a
method (its text is spelled out below, with the name and the types of that method) if
and only if the method is neither client-streaming nor server-streaming; the
generated file is a first part, which holds no first line of a proxy method, followed
by the proxy methods of exactly the non-streaming methods, in the method order of the
service, one each. -/
theorem proxy_methods_emitted (lib : Lib) (registerGateway : Bool) (p : Plugin) (f : File)
    (service : Service) (h : f.Services = [service]) :
    let q : GoIdent → String := lib.qualifiedGoIdent f.GoImportPath
    let head : Method → String := fun m =>
      "func (p *" ++ ("proxy" ++ service.GoName ++ "Server") ++ ") " ++ m.GoName ++ "(ctx " ++
        q { GoName := "Context", GoImportPath := "context" } ++ ", req *" ++ q m.Input ++
        ") (*" ++ q m.Output ++ ", error) \x7b"
    let text : Method → List String := fun m =>
      [ head m,
        "info := &" ++
          q { GoName := "UnaryServerInfo", GoImportPath := "google.golang.org/grpc" } ++ "\x7b",
        "Server: p." ++ service.GoName ++ "Server,",
        "FullMethod: " ++ lib.quote ("/" ++ service.FullName ++ "/" ++ m.Name) ++ ",",
        "\x7d",
        "handler := func(ctx " ++ q { GoName := "Context", GoImportPath := "context" } ++
          ", req any) (any, error) \x7b",
        "return p." ++ service.GoName ++ "Server." ++ m.GoName ++ "(ctx, req.(*" ++
          q m.Input ++ "))",
        "\x7d",
        "resp, err := p.interceptor(ctx, req, info, handler)",
        "if err != nil || resp == nil \x7b",
        "return nil, err",
        "\x7d",
        "return resp.(*" ++ q m.Output ++ "), nil",
        "\x7d",
        "" ]
    (∀ (g : List String) (m : Method),
      proxyStep lib f service g m = g ++ text m ↔
        (m.IsStreamingClient = false ∧ m.IsStreamingServer = false)) ∧
    (∀ (g : List String) (m : Method),
      proxyStep lib f service g m = g ↔
        ¬ (m.IsStreamingClient = false ∧ m.IsStreamingServer = false)) ∧
    ∃ gen pre, generateFile lib registerGateway p f = p.NewGeneratedFile gen ∧
      gen.lines = pre ++
        ((service.Methods.filter
          (fun m => m.IsStreamingClient = false ∧ m.IsStreamingServer = false)).map
            text).flatten ∧
      ∀ m : Method, head m ∉ pre := by
  intro q head text
  have htext : text = proxyMethodLines lib f service := rfl
  refine ⟨?_, ?_, ?_⟩
  · intro g m
    rw [htext]
    unfold proxyStep
    cases m.IsStreamingClient <;> cases m.IsStreamingServer <;>
      simp [proxyMethodLines_ne_nil]
  · intro g m
    unfold proxyStep
    cases m.IsStreamingClient <;> cases m.IsStreamingServer <;>
      simp [proxyMethodLines_ne_nil]
  · refine ⟨_, fixedLines lib registerGateway p f service,
      generateFile_one lib registerGateway p f service h, ?_, ?_⟩
    · rw [htext]
      simp only
      congr 3
      apply List.filter_congr
      intro m _
      cases m.IsStreamingClient <;> cases m.IsStreamingServer <;> simp
    · intro m hm
      exact fixedLines_not_proxyHeadLike lib registerGateway p f service _ hm
        (proxyHead_proxyHeadLike _ _ _ _ _)

/-- Witness of C4: of a unary, a client-streaming, a server-streaming and a
bidirectional method only the unary one, `Get`, gets a proxy method. -/
theorem proxy_methods_emitted_witness :
    ∃ gen pre,
      generateFile sampleLib true Plugin.init mixedFile = Plugin.init.NewGeneratedFile gen ∧
      gen.lines = pre ++
        [ "func (p *proxySServer) Get(ctx context.Context, req *GetRequest) (*GetResponse, error) \x7b",
          "info := &google.golang.org/grpc.UnaryServerInfo\x7b",
          "Server: p.SServer,",
          "FullMethod: \"/api.S/Get\",",
          "\x7d",
          "handler := func(ctx context.Context, req any) (any, error) \x7b",
          "return p.SServer.Get(ctx, req.(*GetRequest))",
          "\x7d",
          "resp, err := p.interceptor(ctx, req, info, handler)",
          "if err != nil || resp == nil \x7b",
          "return nil, err",
          "\x7d",
          "return resp.(*GetResponse), nil",
          "\x7d",
          "" ] := by
  obtain ⟨gen, pre, h1, h2, -⟩ :=
    (proxy_methods_emitted sampleLib true Plugin.init mixedFile mixedService rfl).2.2
  refine ⟨gen, pre, h1, ?_⟩
  rw [h2]
  congr 1

/-! ## Paths: lemmas -/

theorem extLoop_suffix (r : List Char) :
    ∀ acc : List Char, ∃ pre, r.reverse ++ acc = pre ++ extLoop r acc := by
  induction r with
  | nil => intro acc; exact ⟨acc, by simp [extLoop]⟩
  | cons c rest ih =>
    intro acc
    unfold extLoop
    by_cases hs : isPathSeparator c = true
    · rw [if_pos hs]
      exact ⟨(c :: rest).reverse ++ acc, by simp⟩
    · rw [if_neg hs]
      by_cases hd : c = '.'
      · rw [if_pos hd]
        exact ⟨rest.reverse, by simp⟩
      · rw [if_neg hd]
        obtain ⟨pre, hpre⟩ := ih (c :: acc)
        exact ⟨pre, by rw [← hpre]; simp⟩

theorem ext_suffix (f : String) : ∃ pre, f.data = pre ++ (Ext f).data := by
  obtain ⟨pre, h⟩ := extLoop_suffix f.data.reverse []
  exact ⟨pre, by simpa [Ext] using h⟩

theorem isPathSeparator_iff (c : Char) : isPathSeparator c = true ↔ c = '/' := by
  simp [isPathSeparator]

theorem lastElement_no_separator (r : List Char) :
    ∀ acc : List Char, (∀ c ∈ acc, c ≠ '/') → ∀ c ∈ lastElement r acc, c ≠ '/' := by
  induction r with
  | nil => intro acc h; simpa [lastElement] using h
  | cons x rest ih =>
    intro acc h
    unfold lastElement
    by_cases hs : isPathSeparator x = true
    · rw [if_pos hs]
      exact h
    · rw [if_neg hs]
      apply ih
      intro c hc
      rcases List.mem_cons.1 hc with rfl | hc
      · exact fun hx => hs ((isPathSeparator_iff _).2 hx)
      · exact h c hc

theorem lastElement_ne_nil (r : List Char) :
    ∀ acc : List Char, acc ≠ [] → lastElement r acc ≠ [] := by
  induction r with
  | nil => intro acc h; simpa [lastElement] using h
  | cons x rest ih =>
    intro acc h
    unfold lastElement
    by_cases hs : isPathSeparator x = true
    · rw [if_pos hs]
      exact h
    · rw [if_neg hs]
      exact ih _ (List.cons_ne_nil _ _)

theorem stripTrailing_eq_nil (r : List Char) :
    stripTrailing r = [] ↔ ∀ c ∈ r, c = '/' := by
  induction r with
  | nil => simp [stripTrailing]
  | cons x rest ih =>
    unfold stripTrailing
    by_cases hs : isPathSeparator x = true
    · rw [if_pos hs, ih]
      have hx : x = '/' := (isPathSeparator_iff _).1 hs
      simp [hx]
    · rw [if_neg hs]
      have hx : ¬ x = '/' := fun hx => hs ((isPathSeparator_iff _).2 hx)
      simp [hx]

theorem lastElement_stripTrailing_eq_nil (r : List Char) :
    lastElement (stripTrailing r) [] = [] ↔ ∀ c ∈ r, c = '/' := by
  rw [← stripTrailing_eq_nil]
  constructor
  · intro h
    induction r with
    | nil => simp [stripTrailing]
    | cons x rest ih =>
      unfold stripTrailing at h ⊢
      by_cases hs : isPathSeparator x = true
      · rw [if_pos hs] at h ⊢
        exact ih h
      · rw [if_neg hs] at h
        unfold lastElement at h
        rw [if_neg hs] at h
        exact absurd h (lastElement_ne_nil rest [x] (List.cons_ne_nil _ _))
  · intro h
    rw [h]
    rfl

theorem base_separator_iff (name : String) :
    '/' ∈ (Base name).data ↔ name.data ≠ [] ∧ ∀ c ∈ name.data, c = '/' := by
  unfold Base
  by_cases hn : name.data = []
  · rw [if_pos hn]
    constructor
    · intro h
      exact absurd h (by decide)
    · intro h
      exact absurd hn h.1
  · rw [if_neg hn]
    by_cases he : lastElement (stripTrailing name.data.reverse) [] = []
    · have hall := (lastElement_stripTrailing_eq_nil _).1 he
      simp only
      rw [if_pos he]
      constructor
      · intro _
        exact ⟨hn, fun c hc => hall c (List.mem_reverse.2 hc)⟩
      · intro _
        decide
    · have hno := lastElement_no_separator (stripTrailing name.data.reverse) []
        (by simp)
      simp only
      rw [if_neg he]
      constructor
      · intro hmem
        exact absurd rfl (hno _ hmem)
      · rintro ⟨-, hall⟩
        exact absurd ((lastElement_stripTrailing_eq_nil _).2
          (fun c hc => hall c (List.mem_reverse.1 hc))) he

theorem base_of_separators (name : String) (hn : name.data ≠ [])
    (hall : ∀ c ∈ name.data, c = '/') : Base name = "/" := by
  unfold Base
  have he : lastElement (stripTrailing name.data.reverse) [] = [] :=
    (lastElement_stripTrailing_eq_nil _).2 (fun c hc => hall c (List.mem_reverse.1 hc))
  simp [hn, he]

theorem trimPathAndExt_data (name : String) :
    ∃ pre, (Base name).data = pre ++ (Ext (Base name)).data ∧
      (trimPathAndExt name).data = pre := by
  obtain ⟨pre, h⟩ := ext_suffix (Base name)
  refine ⟨pre, h, ?_⟩
  unfold trimPathAndExt
  simp only
  conv_lhs => rw [h]
  simp

theorem cleanLoop_fuel (rooted : Bool) (n : Nat) :
    ∀ (fuel₁ fuel₂ : Nat) (path out : List Char) (dotdot : Nat),
      path.length ≤ n → n ≤ fuel₁ → n ≤ fuel₂ →
        cleanLoop rooted fuel₁ path out dotdot = cleanLoop rooted fuel₂ path out dotdot := by
  induction n with
  | zero =>
    intro fuel₁ fuel₂ path out dotdot hp _ _
    have hnil : path = [] := List.length_eq_zero.1 (Nat.le_zero.1 hp)
    subst hnil
    cases fuel₁ <;> cases fuel₂ <;> simp [cleanLoop]
  | succ n ih =>
    intro fuel₁ fuel₂ path out dotdot hp h₁ h₂
    cases path with
    | nil => cases fuel₁ <;> cases fuel₂ <;> simp [cleanLoop]
    | cons c rest =>
      obtain ⟨f₁, rfl⟩ : ∃ f, fuel₁ = f + 1 := ⟨fuel₁ - 1, by omega⟩
      obtain ⟨f₂, rfl⟩ : ∃ f, fuel₂ = f + 1 := ⟨fuel₂ - 1, by omega⟩
      have hrest : rest.length ≤ n := by simpa using hp
      have htail : rest.tail.length ≤ n := by
        rw [List.length_tail]; omega
      by_cases hc : isPathSeparator c = true
      · simp only [cleanLoop, hc, if_true]
        exact ih _ _ _ _ _ hrest (by omega) (by omega)
      · have hdrop :
            ((c :: rest).dropWhile (fun x => !isPathSeparator x)).length ≤ n := by
          have hle := (List.dropWhile_suffix (fun x => !isPathSeparator x)
            (l := rest)).length_le
          simp only [List.dropWhile_cons, hc, Bool.not_false, if_true]
          omega
        simp only [cleanLoop, hc]
        split_ifs
        all_goals
          first
          | exact ih _ _ _ _ _ hrest (by omega) (by omega)
          | exact ih _ _ _ _ _ htail (by omega) (by omega)
          | exact ih _ _ _ _ _ hdrop (by omega) (by omega)

/-! ## Paths: claims -/

/-- C9, as stated, fails: for the name `/` the result of `trimPathAndExt` is `/`, which
is a directory separator. -/
theorem trimPathAndExt_root_has_separator :
    trimPathAndExt "/" = "/" ∧ '/' ∈ (trimPathAndExt "/").data ∧
      Base "/" = "/" ∧ Ext (Base "/") = "" := by
  decide

/-- C9, amended. For every file name, `trimPathAndExt name` followed by
`filepath.Ext(filepath.Base(name))` is `filepath.Base(name)`; it contains a separator
exactly when the name is a non-empty run of `/`, and then it is `/` itself; and the
file generated for a file with one service carries the embed directive naming
`trimPathAndExt` of the file name followed by `.swagger.json`. -/
theorem embed_asset_name (name : String) :
    trimPathAndExt name ++ Ext (Base name) = Base name ∧
    ('/' ∈ (trimPathAndExt name).data ↔ name.data ≠ [] ∧ ∀ c ∈ name.data, c = '/') ∧
    ((name.data ≠ [] ∧ ∀ c ∈ name.data, c = '/') → trimPathAndExt name = "/") ∧
    ∀ (lib : Lib) (registerGateway : Bool) (p : Plugin) (f : File) (service : Service),
      f.Name = some name → f.Services = [service] →
        ∃ gen, generateFile lib registerGateway p f = p.NewGeneratedFile gen ∧
          "//go:embed " ++ trimPathAndExt name ++ ".swagger.json" ∈ gen.lines := by
  obtain ⟨pre, hbase, htrim⟩ := trimPathAndExt_data name
  have hsep : (name.data ≠ [] ∧ ∀ c ∈ name.data, c = '/') → trimPathAndExt name = "/" := by
    rintro ⟨hn, hall⟩
    have hb := base_of_separators name hn hall
    unfold trimPathAndExt
    rw [hb]
    decide
  refine ⟨?_, ?_, hsep, ?_⟩
  · apply String.ext
    rw [String.data_append, htrim, ← hbase]
  · constructor
    · intro hmem
      apply (base_separator_iff name).1
      rw [hbase]
      rw [htrim] at hmem
      exact List.mem_append_left _ hmem
    · intro h
      rw [hsep h]
      decide
  · intro lib registerGateway p f service hname hserv
    refine ⟨_, generateFile_one lib registerGateway p f service hserv, ?_⟩
    have hg : f.GetName = name := by simp [File.GetName, hname]
    simp [fixedLines, descriptorLines, hg]

/-- Witness of C9: the asset named for `foo/bar.v1.proto` is `bar.v1.swagger.json`. -/
theorem embed_asset_name_witness :
    trimPathAndExt "foo/bar.v1.proto" = "bar.v1" ∧
    ∃ gen,
      generateFile sampleLib true Plugin.init
        { protoFile "foo/bar.v1.proto" "pkg" with Services := [sampleService "S" []] } =
        Plugin.init.NewGeneratedFile gen ∧
      "//go:embed " ++ trimPathAndExt "foo/bar.v1.proto" ++ ".swagger.json" ∈ gen.lines :=
  ⟨by decide,
   (embed_asset_name "foo/bar.v1.proto").2.2.2 sampleLib true Plugin.init
    { protoFile "foo/bar.v1.proto" "pkg" with Services := [sampleService "S" []] }
    (sampleService "S" []) rfl rfl⟩

/-! ## The run: lemmas -/

theorem error_err_isSome (p : Plugin) (e : GenError) : (p.Error e).err.isSome = true := by
  unfold Plugin.Error
  cases h : p.err <;> simp

theorem checkFile_keeps_err (lib : Lib) (pv : uniqPackageValidator) (p : Plugin)
    (log : List String) (f : File) (h : p.err.isSome = true) :
    (checkFile lib pv p log f).2.1.err.isSome = true := by
  unfold checkFile
  cases hd : pv.dir2pkg (Dir f.GetName) with
  | none => simpa [hd] using h
  | some pkg =>
    by_cases hp : f.GetPackage = pkg
    · simpa [hd, hp] using h
    · simpa [hd, hp] using error_err_isSome p _

theorem checkFile_conflict_err (lib : Lib) (pv : uniqPackageValidator) (p : Plugin)
    (log : List String) (f : File) (h : checkFileConflict pv f = true) :
    (checkFile lib pv p log f).2.1.err.isSome = true := by
  unfold checkFileConflict at h
  unfold checkFile
  cases hd : pv.dir2pkg (Dir f.GetName) with
  | none => simp [hd] at h
  | some pkg =>
    rw [hd] at h
    have hp : ¬ f.GetPackage = pkg := by simpa using h
    simpa [hd, hp] using error_err_isSome p _

theorem validateFile_keeps_err (lib : Lib) (p : Plugin) (f : File)
    (h : p.err.isSome = true) : (validateFile lib p f).err.isSome = true := by
  unfold validateFile
  by_cases hp : f.Package.isNone = true
  · rw [if_pos hp]; exact error_err_isSome p _
  · rw [if_neg hp]; exact h

theorem validateFile_missing_err (lib : Lib) (p : Plugin) (f : File)
    (h : f.Package = none) : (validateFile lib p f).err.isSome = true := by
  unfold validateFile
  rw [h]
  exact error_err_isSome p _

theorem generateFile_keeps_err (lib : Lib) (registerGateway : Bool) (p : Plugin) (f : File)
    (h : p.err.isSome = true) : (generateFile lib registerGateway p f).err.isSome = true := by
  unfold generateFile
  cases f.Services with
  | nil => exact h
  | cons s rest =>
    cases rest with
    | nil => exact h
    | cons s2 rest2 => exact error_err_isSome p _

theorem visitFile_keeps_err (lib : Lib) (registerGateway : Bool)
    (st : uniqPackageValidator × Plugin × List String) (f : File)
    (h : st.2.1.err.isSome = true) :
    (visitFile lib registerGateway st f).2.1.err.isSome = true := by
  unfold visitFile
  by_cases hg : (!f.Generate) = true
  · rw [if_pos hg]; exact h
  · rw [if_neg hg]
    exact generateFile_keeps_err _ _ _ _
      (validateFile_keeps_err _ _ _ (checkFile_keeps_err _ _ _ _ _ h))

theorem foldl_visitFile_keeps_err (lib : Lib) (registerGateway : Bool) (files : List File) :
    ∀ st : uniqPackageValidator × Plugin × List String, st.2.1.err.isSome = true →
      (files.foldl (visitFile lib registerGateway) st).2.1.err.isSome = true := by
  induction files with
  | nil => intro st h; exact h
  | cons f rest ih =>
    intro st h
    rw [List.foldl_cons]
    exact ih _ (visitFile_keeps_err lib registerGateway st f h)

theorem visitFile_diagnostic_err (lib : Lib) (registerGateway : Bool)
    (st : uniqPackageValidator × Plugin × List String) (f : File)
    (hgen : f.Generate = true)
    (hdiag : checkFileConflict st.1 f = true ∨ f.Package = none) :
    (visitFile lib registerGateway st f).2.1.err.isSome = true := by
  unfold visitFile
  have hg : ¬ (!f.Generate) = true := by simp [hgen]
  rw [if_neg hg]
  apply generateFile_keeps_err
  rcases hdiag with hc | hm
  · exact validateFile_keeps_err _ _ _ (checkFile_conflict_err _ _ _ _ _ hc)
  · exact validateFile_missing_err _ _ _ hm

theorem response_of_err (p : Plugin) (h : p.err.isSome = true) :
    p.Response.files = [] ∧ p.Response.error.isSome = true := by
  unfold Plugin.Response
  cases he : p.err with
  | none => rw [he] at h; simp at h
  | some e => simp

/-! ## The run: claims -/

/-- C6. In every run, when a visited file makes `checkFile` or `validateFile` raise a
diagnostic (its package differs from the entry of its directory, or it has no
package), the response of the run reports an error and carries no generated file, so
none for that file. -/
theorem failed_run_no_artifact (lib : Lib) (registerGateway : Bool) (p : Plugin)
    (before : List File) (f : File) (after : List File)
    (hgen : f.Generate = true)
    (hdiag : checkFileConflict (runPlugin lib registerGateway p before).1 f = true ∨
      f.Package = none) :
    (runResponse lib registerGateway p (before ++ f :: after)).files = [] ∧
    (runResponse lib registerGateway p (before ++ f :: after)).error.isSome = true ∧
    ∀ g ∈ (runResponse lib registerGateway p (before ++ f :: after)).files,
      g.filename ≠ f.GeneratedFilenamePrefix ++ ".pb.bomboglot.go" := by
  have herr : (runPlugin lib registerGateway p (before ++ f :: after)).2.1.err.isSome =
      true := by
    unfold runPlugin
    rw [List.foldl_append, List.foldl_cons]
    apply foldl_visitFile_keeps_err
    exact visitFile_diagnostic_err lib registerGateway _ f hgen hdiag
  have hresp := response_of_err _ herr
  refine ⟨hresp.1, hresp.2, ?_⟩
  intro g hg
  unfold runResponse at hg
  rw [hresp.1] at hg
  exact absurd hg (List.not_mem_nil g)

/-- Witness of C6: `foo/bar.proto` (package `pkg`, one service `S`) followed by
`foo/baz.proto` (package `pkg2`): the run fails and its response carries no file,
although `generateFile` was called for `foo/bar.proto` and the plugin holds its file. -/
theorem failed_run_no_artifact_witness :
    (runResponse sampleLib true Plugin.init [barFile, protoFile "foo/baz.proto" "pkg2"]).files =
      [] ∧
    (runResponse sampleLib true Plugin.init [barFile, protoFile "foo/baz.proto" "pkg2"]).error =
      some "proto file did not pass validation" ∧
    ((runPlugin sampleLib true Plugin.init
      [barFile, protoFile "foo/baz.proto" "pkg2"]).2.1.genFiles.map
        GeneratedFile.filename) = ["foo/bar.proto.pb.bomboglot.go"] :=
  have h := failed_run_no_artifact sampleLib true Plugin.init [barFile]
    (protoFile "foo/baz.proto" "pkg2") [] rfl (Or.inl (by decide))
  ⟨h.1, by decide, by decide⟩

/-! ## The emitted code: lemmas -/

namespace Emitted

theorem attachAll_of_some {σ : Type} (us : List (UnaryServerInterceptor σ)) :
    ∀ (d : ServiceDesc σ) (c : UnaryServerInterceptor σ), d.i = some c →
      (attachAll d us).svc = d.svc ∧
      (attachAll d us).i = some (fun ctx req info handler w =>
        c ctx req info (fun ctx1 req1 w1 => nested us ctx1 req1 info handler w1) w) := by
  induction us with
  | nil =>
    intro d c h
    exact ⟨rfl, h⟩
  | cons u rest ih =>
    intro d c h
    have hstep : WithHTTPUnaryInterceptor d (some u) =
        { d with i := some (ChainUnaryServer (some c) (some u)) } := by
      simp [WithHTTPUnaryInterceptor, h]
    have := ih (WithHTTPUnaryInterceptor d (some u)) (ChainUnaryServer (some c) (some u))
      (by rw [hstep])
    constructor
    · show (attachAll (WithHTTPUnaryInterceptor d (some u)) rest).svc = d.svc
      rw [this.1, hstep]
    · show (attachAll (WithHTTPUnaryInterceptor d (some u)) rest).i = _
      rw [this.2]
      rfl

theorem attachAll_fresh {σ : Type} (svc : Server σ) (u : UnaryServerInterceptor σ)
    (us : List (UnaryServerInterceptor σ)) :
    (attachAll (NewServiceDesc svc) (u :: us)).svc = svc ∧
    (attachAll (NewServiceDesc svc) (u :: us)).i = some (nested (u :: us)) := by
  have h := attachAll_of_some us
    (WithHTTPUnaryInterceptor (NewServiceDesc svc) (some u)) u rfl
  exact ⟨h.1, h.2⟩

theorem nested_observers (labels : List String) (ctx : Nat) (req : Option Dyn)
    (info : UnaryServerInfo (List Event)) (handler : UnaryHandler (List Event))
    (resp : Option Dyn) (err : Option String) (ev : Event)
    (hh : ∀ w, handler ctx req w = (.ret (resp, err), w ++ [ev])) :
    ∀ w, nested (labels.map observer) ctx req info handler w =
      (.ret (resp, err),
        w ++ labels.map Event.enter ++ [ev] ++
          labels.reverse.map (fun l => Event.leave l resp err)) := by
  induction labels with
  | nil => intro w; simp [nested, hh]
  | cons l rest ih =>
    intro w
    simp only [List.map_cons, nested, observer]
    rw [ih]
    simp

theorem registerGateway_of_some {σ : Type} (registerGateway : Bool) (service : Service)
    (d : ServiceDesc σ) (c : UnaryServerInterceptor σ) (hd : d.i = some c)
    (hfull : (registerGateway || methodsHaveHttpOptions service.Methods) = true) :
    (RegisterGateway registerGateway service d).2 =
      some (.proxy { Server := d.svc, interceptor := some c }) := by
  simp [RegisterGateway, hfull, hd]

theorem gatewayCall_of_some {σ : Type} (registerGateway : Bool) (service : Service)
    (d : ServiceDesc σ) (c : UnaryServerInterceptor σ) (hd : d.i = some c)
    (hfull : (registerGateway || methodsHaveHttpOptions service.Methods) = true)
    (m : Method) (hm : m.IsStreamingClient = false ∧ m.IsStreamingServer = false)
    (ctx req : Nat) (w : σ) :
    gatewayCall registerGateway service d m ctx req w =
      some (proxyMethod service m { Server := d.svc, interceptor := some c } ctx req w) := by
  unfold gatewayCall
  rw [registerGateway_of_some registerGateway service d c hd hfull]
  simp [Registered.call, hm.1, hm.2]

theorem gatewayCall_observers (registerGateway : Bool) (service : Service) (m : Method)
    (hm : m.IsStreamingClient = false ∧ m.IsStreamingServer = false)
    (hfull : (registerGateway || methodsHaveHttpOptions service.Methods) = true)
    (label : String) (labels : List String) (resp : Nat) (err : Option String)
    (ctx req : Nat) :
    gatewayCall registerGateway service
        (attachAll (NewServiceDesc (recordingServer resp err))
          ((label :: labels).map observer)) m ctx req [] =
      some (.ret (if err.isSome then (0, err) else (resp, none)),
        (label :: labels).map Event.enter ++ [Event.served m.GoName req] ++
          (label :: labels).reverse.map
            (fun l => Event.leave l (some { ty := m.Output, ptr := resp }) err)) := by
  have hat := attachAll_fresh (recordingServer resp err) (observer label)
    (labels.map observer)
  rw [List.map_cons (f := observer),
    gatewayCall_of_some registerGateway service _ _ hat.2 hfull m hm, hat.1]
  unfold proxyMethod
  simp only [invoke]
  have hn := nested_observers (label :: labels) ctx (some { ty := m.Input, ptr := req })
    { Server := recordingServer resp err,
      FullMethod := "/" ++ service.FullName ++ "/" ++ m.Name }
    (proxyHandler m
      (ProxyServer.mk (recordingServer resp err)
        (some (nested (observer label :: labels.map observer)))))
    (some { ty := m.Output, ptr := resp }) err (Event.served m.GoName req)
    (by intro w; simp [proxyHandler, typeAssert, recordingServer]) []
  rw [List.map_cons] at hn
  rw [hn]
  cases err with
  | none => simp [typeAssert]
  | some e => simp

theorem filter_isServed_trace (labels : List String) (name : String) (req : Nat)
    (resp : Option Dyn) (err : Option String) :
    (labels.map Event.enter ++ [Event.served name req] ++
      labels.reverse.map (fun l => Event.leave l resp err)).filter Event.isServed =
      [Event.served name req] := by
  have h1 : (labels.map Event.enter).filter Event.isServed = [] := by
    rw [List.filter_eq_nil_iff]
    intro e he
    obtain ⟨l, -, rfl⟩ := List.mem_map.1 he
    simp [Event.isServed]
  have h2 : (labels.reverse.map (fun l => Event.leave l resp err)).filter Event.isServed =
      [] := by
    rw [List.filter_eq_nil_iff]
    intro e he
    obtain ⟨l, -, rfl⟩ := List.mem_map.1 he
    simp [Event.isServed]
  rw [List.filter_append, List.filter_append, h1, h2]
  simp [Event.isServed]

/-! ## The emitted code: claims -/

/-- C3. For a non-streaming method of a service whose gateway is registered, and
interceptors attached one after another to a fresh descriptor: the descriptor holds
the chain in which the first attached interceptor is outermost and the last one
receives the handler of the proxy method; with interceptors that record and pass
through, a call enters them in attachment order, calls the service method exactly
once, and hands its response and error back unchanged through them in reverse order;
attaching `a`, `b` is told apart from attaching `b`, `a` when `a ≠ b`; and with no
interceptor attached the call is the service method alone. -/
theorem interceptors_run_in_attachment_order (registerGateway : Bool) (service : Service)
    (m : Method) (hm : m.IsStreamingClient = false ∧ m.IsStreamingServer = false)
    (hfull : registerGateway = true ∨ ∃ x ∈ service.Methods, x.Http.isSome = true) :
    (∀ (σ : Type) (svc : Server σ) (u : UnaryServerInterceptor σ)
        (us : List (UnaryServerInterceptor σ)) (ctx req : Nat) (w : σ),
      (attachAll (NewServiceDesc svc) (u :: us)).i = some (nested (u :: us)) ∧
      gatewayCall registerGateway service (attachAll (NewServiceDesc svc) (u :: us))
          m ctx req w =
        some (proxyMethod service m (ProxyServer.mk svc (some (nested (u :: us))))
          ctx req w)) ∧
    (∀ (label : String) (labels : List String) (resp : Nat) (err : Option String)
        (ctx req : Nat),
      ∃ trace,
        gatewayCall registerGateway service
            (attachAll (NewServiceDesc (recordingServer resp err))
              ((label :: labels).map observer)) m ctx req [] =
          some (.ret (if err.isSome then (0, err) else (resp, none)), trace) ∧
        trace = (label :: labels).map Event.enter ++ [Event.served m.GoName req] ++
          (label :: labels).reverse.map
            (fun l => Event.leave l (some { ty := m.Output, ptr := resp }) err) ∧
        trace.filter Event.isServed = [Event.served m.GoName req]) ∧
    (∀ (a b : String) (resp : Nat) (err : Option String) (ctx req : Nat), a ≠ b →
      gatewayCall registerGateway service
          (attachAll (NewServiceDesc (recordingServer resp err)) [observer a, observer b])
          m ctx req [] ≠
        gatewayCall registerGateway service
          (attachAll (NewServiceDesc (recordingServer resp err)) [observer b, observer a])
          m ctx req []) ∧
    (∀ (resp : Nat) (err : Option String) (ctx req : Nat),
      gatewayCall registerGateway service
          (attachAll (NewServiceDesc (recordingServer resp err)) []) m ctx req [] =
        some (.ret (resp, err), [Event.served m.GoName req])) := by
  have hf : (registerGateway || methodsHaveHttpOptions service.Methods) = true := by
    rw [Bool.or_eq_true, methodsHaveHttpOptions_iff]
    exact hfull
  refine ⟨?_, ?_, ?_, ?_⟩
  · intro σ svc u us ctx req w
    have hat := attachAll_fresh svc u us
    refine ⟨hat.2, ?_⟩
    rw [gatewayCall_of_some registerGateway service _ _ hat.2 hf m hm, hat.1]
  · intro label labels resp err ctx req
    exact ⟨_, gatewayCall_observers registerGateway service m hm hf label labels resp err
      ctx req, rfl, filter_isServed_trace _ _ _ _ _⟩
  · intro a b resp err ctx req hab
    have h1 := gatewayCall_observers registerGateway service m hm hf a [b] resp err ctx req
    have h2 := gatewayCall_observers registerGateway service m hm hf b [a] resp err ctx req
    simp only [List.map_cons, List.map_nil] at h1 h2
    rw [h1, h2]
    intro heq
    simp at heq
    exact hab heq.1
  · intro resp err ctx req
    simp [gatewayCall, RegisterGateway, hf, attachAll, NewServiceDesc, Registered.call,
      recordingServer]

/-- Witness of C3: interceptors `A`, `B`, `C` around the method `Get`. -/
theorem interceptors_run_in_attachment_order_witness :
    ∃ trace,
      gatewayCall true (sampleService "S" [unaryMethod "Get"])
          (attachAll (NewServiceDesc (recordingServer 7 none))
            (["A", "B", "C"].map observer)) (unaryMethod "Get") 0 5 [] =
        some (.ret (if (none : Option String).isSome then (0, none) else (7, none)), trace) ∧
      trace = ["A", "B", "C"].map Event.enter ++ [Event.served (unaryMethod "Get").GoName 5] ++
        ["A", "B", "C"].reverse.map
          (fun l => Event.leave l (some { ty := (unaryMethod "Get").Output, ptr := 7 }) none) ∧
      trace.filter Event.isServed = [Event.served (unaryMethod "Get").GoName 5] :=
  (interceptors_run_in_attachment_order true (sampleService "S" [unaryMethod "Get"])
    (unaryMethod "Get") ⟨rfl, rfl⟩ (Or.inl rfl)).2.1 "A" ["B", "C"] 7 none 0 5

/-- C10. `RegisterGateway` builds a proxy value only with the non-nil interceptor of
the descriptor, so the proxy method never calls a nil interceptor; a fresh descriptor
has no interceptor; and with no interceptor attached a gateway call of a method is the
call of the service method itself (when the gateway is registered at all). -/
theorem no_interceptor_direct_call (registerGateway : Bool) (service : Service)
    (σ : Type) :
    (∀ (d : ServiceDesc σ) (p : ProxyServer σ),
      (RegisterGateway registerGateway service d).2 = some (.proxy p) →
        p.interceptor.isSome = true ∧ p.interceptor = d.i ∧
        ∀ (u : UnaryServerInterceptor σ) ctx req info handler w,
          p.interceptor = some u →
            invoke p.interceptor ctx req info handler w = u ctx req info handler w) ∧
    (∀ svc : Server σ, (NewServiceDesc svc).i = none ∧
      (attachAll (NewServiceDesc svc) []).i = none) ∧
    (∀ (d : ServiceDesc σ) (m : Method) (ctx req : Nat) (w : σ), d.i = none →
      (registerGateway = true ∨ ∃ x ∈ service.Methods, x.Http.isSome = true) →
        (RegisterGateway registerGateway service d).2 = some (.service d.svc) ∧
        gatewayCall registerGateway service d m ctx req w =
          some (d.svc m.GoName ctx req w)) ∧
    (∀ (d : ServiceDesc σ) (m : Method) (ctx req : Nat) (w : σ),
      ¬ (registerGateway = true ∨ ∃ x ∈ service.Methods, x.Http.isSome = true) →
        gatewayCall registerGateway service d m ctx req w = none) := by
  have hcond : (registerGateway || methodsHaveHttpOptions service.Methods) = true ↔
      (registerGateway = true ∨ ∃ x ∈ service.Methods, x.Http.isSome = true) := by
    rw [Bool.or_eq_true, methodsHaveHttpOptions_iff]
  refine ⟨?_, ?_, ?_, ?_⟩
  · intro d p hp
    unfold RegisterGateway at hp
    cases hc : (registerGateway || methodsHaveHttpOptions service.Methods) with
    | false => simp [hc] at hp
    | true =>
      cases hi : d.i with
      | none => simp [hc, hi] at hp
      | some c =>
        simp [hc, hi] at hp
        subst hp
        refine ⟨rfl, rfl, ?_⟩
        intro u ctx req info handler w hu
        simp only [Option.some.injEq] at hu
        subst hu
        rfl
  · intro svc
    exact ⟨rfl, rfl⟩
  · intro d m ctx req w hi hfull
    have hc := hcond.2 hfull
    have hr : (RegisterGateway registerGateway service d).2 = some (.service d.svc) := by
      simp [RegisterGateway, hc, hi]
    refine ⟨hr, ?_⟩
    unfold gatewayCall
    rw [hr]
    rfl
  · intro d m ctx req w hno
    have hc : (registerGateway || methodsHaveHttpOptions service.Methods) = false := by
      cases h : (registerGateway || methodsHaveHttpOptions service.Methods) with
      | false => rfl
      | true => exact absurd (hcond.1 h) hno
    simp [gatewayCall, RegisterGateway, hc]

/-- Witness of C10: a fresh descriptor, the gateway registered, the method `Get`: the
call goes to the service method and nothing else is recorded. -/
theorem no_interceptor_direct_call_witness :
    gatewayCall true (sampleService "S" [unaryMethod "Get"])
        (NewServiceDesc (recordingServer 7 none)) (unaryMethod "Get") 0 5 [] =
      some (.ret (7, none), [Event.served "Get" 5]) :=
  ((no_interceptor_direct_call true (sampleService "S" [unaryMethod "Get"])
    (List Event)).2.2.1 (NewServiceDesc (recordingServer 7 none)) (unaryMethod "Get") 0 5 []
    rfl (Or.inl rfl)).2

end Emitted

end Uniform
